import Mathlib

/-!
Verification of the command-execution core of ahab-gui
(src/commands/zero_trust_executor.py) against its specification.

The Python module is shallowly embedded: pure helpers become Lean
functions; the mutable executor state (the running-commands dict and the
execution history list, both mutated only under `self._lock`) is passed
explicitly; every lock-protected block of the source is one atomic step
of the model.  Interactions with the outside world (the spawned
subprocess, the user callback, the stderr stream, the regular-expression
search on a user-supplied pattern) are supplied as an explicit event
record describing what the world did during one run; real-time aspects
(wall-clock duration, timestamps, the sleeping watchdog thread) are
outside the model.
-/

namespace AhabGui

/-- Result record of one execution, mirroring the dataclass
ZeroTrustExecutionResult (zero_trust_executor.py lines 41-82).
The wall-clock fields duration and timestamp are omitted: no claim and
no modelled computation depends on them. -/
structure ZeroTrustExecutionResult where
  command : String
  exit_code : Option Int
  output : String
  error_output : String
  success : Bool
  timeout_occurred : Bool
  verification_passed : Bool
  warnings : List String
  deriving DecidableEq, Inhabited

/-- Source lines 58-74: complete success requires a zero exit code, no
timeout, passed verification and an empty warning list. -/
def ZeroTrustExecutionResult.is_completely_successful (r : ZeroTrustExecutionResult) : Bool :=
  decide (r.exit_code ≠ none) && decide (r.exit_code = some 0) &&
    !r.timeout_occurred && r.verification_passed && decide (r.warnings.length = 0)

/-- Source lines 76-82: a critical failure is a missing exit code, a
timeout, or failed verification. -/
def ZeroTrustExecutionResult.has_critical_failure (r : ZeroTrustExecutionResult) : Bool :=
  decide (r.exit_code = none) || r.timeout_occurred || !r.verification_passed

/-- Model of a live subprocess.Popen handle as far as the registry code
inspects it: poll() either raises or reports the current returncode
(none while the process is alive). -/
structure ProcessHandle where
  pid : Nat
  returncode : Option Int
  poll_raises : Bool
  deriving DecidableEq, Inhabited

/-- State of a running command, mirroring the dataclass CommandState
(source lines 85-92).  started_at is a wall-clock value and is omitted. -/
structure CommandState where
  command : String
  running : Bool
  pid : Option Nat
  process : Option ProcessHandle
  deriving DecidableEq, Inhabited

/-- Source lines 94-107: the running flag alone is never trusted; the
state counts as actually running only when the flag is set, a process
handle is present, poll() does not raise, and returncode is still None. -/
def CommandState.is_actually_running (s : CommandState) : Bool :=
  match s.process with
  | none => false
  | some p => s.running && !p.poll_raises && decide (p.returncode = none)

/-- The running-commands table self._running_commands, a dict keyed by
command name, modelled as an association list with unique keys. -/
abbrev Registry := List (String × CommandState)

namespace Registry

/-- Dict membership / item lookup. -/
def find? (r : Registry) (k : String) : Option CommandState :=
  match r with
  | [] => none
  | (k', v) :: rest => if k' = k then some v else find? rest k

/-- Dict item assignment: replace the value in place when the key is
present, append otherwise. -/
def insert (r : Registry) (k : String) (v : CommandState) : Registry :=
  match r with
  | [] => [(k, v)]
  | (k', v') :: rest => if k' = k then (k, v) :: rest else (k', v') :: insert rest k v

/-- Dict item deletion. -/
def erase (r : Registry) (k : String) : Registry :=
  match r with
  | [] => []
  | (k', v') :: rest => if k' = k then erase rest k else (k', v') :: erase rest k

end Registry

/-- Decision by the Python expression bool(command) and the regular
expression re.match with pattern caret [a-zA-Z0-9_-]+ dollar: a
non-empty run of ASCII letters, digits, underscore or hyphen.  Python's
dollar anchor in non-multiline mode also matches just before one final
newline, so a body followed by a single trailing newline matches too. -/
def allowed_char (c : Char) : Bool :=
  c.isAlphanum || c == '_' || c == '-'

/-- One final newline is stripped before the full-body match, mirroring
the semantics of the dollar anchor in Python re.match. -/
def strip_final_newline (l : List Char) : List Char :=
  match l.reverse with
  | '\n' :: rest => rest.reverse
  | _ => l

/-- Source lines 176-198, _validate_command: reject empty input, input
with characters outside the whitelist, and input longer than 100
characters (the length check applies to the original string). -/
def validate_command (command : String) : Bool :=
  if command = "" then false
  else
    let body := strip_final_newline command.data
    if !(!body.isEmpty && body.all allowed_char) then false
    else if command.length > 100 then false
    else true

/-- Prefix test on character lists (the anchored match of a literal
pattern at one position). -/
def startsWith : List Char → List Char → Bool
  | [], _ => true
  | _ :: _, [] => false
  | p :: ps, c :: cs => (p == c) && startsWith ps cs

/-- Scan for an occurrence of the pattern immediately after a newline
character, the extra match positions granted by re.MULTILINE's caret. -/
def line_start_matches (pat : List Char) : List Char → Bool
  | [] => false
  | c :: rest => ((c == '\n') && startsWith pat rest) || line_start_matches pat rest

/-- Source line 207-208: re.search of caret target colon under
re.MULTILINE, i.e. the literal pattern occurs at the start of the string
or immediately after some newline. -/
def re_search_multiline_anchored (pat : String) (content : String) : Bool :=
  startsWith pat.data content.data || line_start_matches pat.data content.data

/-- Source lines 200-211, _verify_makefile_target: the Makefile content
is none when reading the file raised any I/O error, in which case the
lookup fails closed; otherwise the anchored multiline search decides. -/
def verify_makefile_target (makefile : Option String) (target : String) : Bool :=
  match makefile with
  | none => false
  | some content => re_search_multiline_anchored (target ++ ":") content

/-- Compact audit projection of a result, mirroring the record dict
built by _record_execution (source lines 216-225); the wall-clock
timestamp and duration entries are omitted. -/
structure ExecutionRecord where
  command : String
  exit_code : Option Int
  success : Bool
  timeout_occurred : Bool
  verification_passed : Bool
  warnings_count : Nat
  deriving DecidableEq, Inhabited

/-- Projection from a result to its history record (source lines 216-225). -/
def toRecord (r : ZeroTrustExecutionResult) : ExecutionRecord :=
  { command := r.command
    exit_code := r.exit_code
    success := r.success
    timeout_occurred := r.timeout_occurred
    verification_passed := r.verification_passed
    warnings_count := r.warnings.length }

/-- self._max_history (source line 156). -/
def max_history : Nat := 100

/-- Source lines 227-231: append the record, then trim to the last
max_history entries when the bound is exceeded. -/
def record_execution (history : List ExecutionRecord) (rec : ExecutionRecord) :
    List ExecutionRecord :=
  let h := history ++ [rec]
  if h.length > max_history then h.drop (h.length - max_history) else h

/-- Full mutable state of a ZeroTrustCommandExecutor instance: the
running-commands dict and the execution-history list. -/
structure ExecutorState where
  running_commands : Registry
  execution_history : List ExecutionRecord
  deriving DecidableEq, Inhabited

/-- Immutable configuration fixed at construction: the default timeout
and the content of the Makefile as observed when it is read (none
modelling an I/O error on a given read). -/
structure Config where
  timeout : Int
  makefile : Option String
  deriving DecidableEq, Inhabited

/-- Source lines 458-479, is_running: one lock-protected step that
returns false when no entry exists, evicts the entry and returns false
when its process is not actually alive, and returns true otherwise.
The second component is the running-commands dict after the step. -/
def is_running (reg : Registry) (command : String) : Bool × Registry :=
  match reg.find? command with
  | none => (false, reg)
  | some state =>
    if !state.is_actually_running then (false, reg.erase command)
    else (true, reg)

/-- Events of one kill call supplied by the outside world: whether the
graceful 5-second wait timed out (source line 531, forcing escalation)
and whether any of the terminate/wait/kill calls raised (source
line 542). -/
structure KillEvent where
  wait_times_out : Bool
  raises : Bool
  deriving DecidableEq, Inhabited

/-- Process-level actions performed by the kill sequence. -/
inductive ProcAction where
  | terminate
  | waitGrace
  | forceKill
  | waitFinal
  deriving DecidableEq

/-- Source lines 504-547, kill: no entry means false with the dict
unchanged; an entry without a process handle is evicted and false is
returned; otherwise terminate, wait up to 5 seconds, escalate to a
forced kill when the wait times out, evict the entry and return true,
or return false (still evicting) when the sequence raised.  The third
component lists the process actions of the non-raising sequence; when
the sequence raises it is truncated at the first action. -/
def kill (reg : Registry) (command : String) (ev : KillEvent) :
    Bool × Registry × List ProcAction :=
  match reg.find? command with
  | none => (false, reg, [])
  | some state =>
    match state.process with
    | none => (false, reg.erase command, [])
    | some _ =>
      if ev.raises then (false, reg.erase command, [ProcAction.terminate])
      else if ev.wait_times_out then
        (true, reg.erase command,
          [ProcAction.terminate, ProcAction.waitGrace, ProcAction.forceKill,
            ProcAction.waitFinal])
      else (true, reg.erase command, [ProcAction.terminate, ProcAction.waitGrace])

/-- The entry execute inserts when it marks a command as running
(source lines 296-303): flag set, but no pid and no process handle yet. -/
def freshCommandState (command : String) : CommandState :=
  { command := command, running := true, pid := none, process := none }

/-- What the outside world did during one launched run: whether Popen
raised (and with which message), the pid on success, the lines read from
stdout, per-line callback exceptions, a process.wait failure, the
returncode observed after a successful wait, a stderr-read failure, the
stderr content, and the outcome of the re.search call on the
user-supplied verification pattern (raised / match found). -/
structure RunEvent where
  spawn_error : Option String
  pid : Nat
  stdout_lines : List String
  callback_errors : List (Option String)
  wait_error : Option String
  wait_exit_code : Int
  stderr_read_error : Option String
  stderr_content : String
  search_raises : Bool
  search_found : Bool
  deriving DecidableEq, Inhabited

/-- Outcome of one execute call: either a raised ValueError with its
message, or a returned result; both carry the executor state afterwards. -/
inductive ExecuteOutcome where
  | raised (msg : String) (st : ExecutorState)
  | returned (res : ZeroTrustExecutionResult) (st : ExecutorState)
  deriving DecidableEq

/-- The result component of a returned outcome. -/
def ExecuteOutcome.getResult? : ExecuteOutcome → Option ZeroTrustExecutionResult
  | .raised _ _ => none
  | .returned res _ => some res

/-- Python truthiness of the verify_output argument at source line 422:
a pattern is effectively requested only when it is present and non-empty. -/
def verify_truthy : Option String → Bool
  | none => false
  | some p => decide (p ≠ "")

/-- Warnings produced by the stdout streaming loop (source lines
345-356): one per line whose callback invocation raised. -/
def callback_warnings (has_callback : Bool) (lines : List String)
    (errs : List (Option String)) : List String :=
  if has_callback then
    (List.range lines.length).filterMap fun i =>
      (errs.getD i none).map fun m => "Callback failed: " ++ m
  else []

/-- Source lines 414-419: success requires a present exit code equal to
zero and no timeout. -/
def successOf (exit_code : Option Int) (timeout_occurred : Bool) : Bool :=
  decide (exit_code ≠ none) && decide (exit_code = some 0) && !timeout_occurred

/-- Source lines 421-434, the verification policy: when a pattern was
effectively requested and the run succeeded, the outcome of the
re.search call decides (a raising search or a miss both fail, each with
its warning); otherwise verification mirrors success.  The first
component is verification_passed, the second the extra warnings. -/
def verificationStep (verify_output : Option String) (success : Bool)
    (search_raises search_found : Bool) : Bool × List String :=
  if verify_truthy verify_output && success then
    if search_raises then (false, ["Output verification error"])
    else if search_found then (true, [])
    else
      (false,
        ["Output verification failed: pattern " ++ verify_output.getD "" ++
          " not found"])
  else (success, [])

/-- Post-processing shared by every non-raising path of execute (source
lines 407-456): combine outputs, compute success from the exit code and
the timeout flag, apply the verification policy, assemble the result and
append its projection to the bounded history. -/
def finishResult (command : String) (verify_output : Option String)
    (exit_code : Option Int) (timeout_occurred : Bool) (warnings : List String)
    (output error_output : String) (search_raises search_found : Bool)
    (reg : Registry) (history : List ExecutionRecord) :
    ZeroTrustExecutionResult × ExecutorState :=
  let success := successOf exit_code timeout_occurred
  let vp := verificationStep verify_output success search_raises search_found
  let result : ZeroTrustExecutionResult :=
    { command := command
      exit_code := exit_code
      output := output
      error_output := error_output
      success := success
      timeout_occurred := timeout_occurred
      verification_passed := vp.1
      warnings := warnings ++ vp.2 }
  (result, { running_commands := reg, execution_history := record_execution history (toRecord result) })

/-- Observations collected by the launched run before post-processing:
the exit code, the timeout flag, the warnings gathered so far, and the
combined stdout/stderr text. -/
structure RunPhaseOut where
  exit_code : Option Int
  timeout_occurred : Bool
  warnings : List String
  output : String
  error_output : String
  deriving DecidableEq, Inhabited

/-- Source lines 340-381, the read/wait/interpret phase of a
successfully spawned run: stream stdout through the callback, wait for
the exit code (a wait failure yields none plus a warning), read stderr
best-effort, and interpret an exit code of None, -15 or -9 as a
timeout/kill with an explanatory warning. -/
def runPhase (has_callback : Bool) (ev : RunEvent) : RunPhaseOut :=
  let cb_warnings := callback_warnings has_callback ev.stdout_lines ev.callback_errors
  let wait_step : Option Int × List String :=
    match ev.wait_error with
    | some msg => (none, ["Process wait failed: " ++ msg])
    | none => (some ev.wait_exit_code, [])
  let stderr_step : String × List String :=
    match ev.stderr_read_error with
    | some msg => ("", ["Failed to read stderr: " ++ msg])
    | none => (ev.stderr_content, [])
  let timeout_step : Bool × List String :=
    if wait_step.1 = none ∨ wait_step.1 = some (-15) ∨ wait_step.1 = some (-9)
    then (true, ["Command may have been terminated due to timeout"])
    else (false, [])
  { exit_code := wait_step.1
    timeout_occurred := timeout_step.1
    warnings := cb_warnings ++ wait_step.2 ++ stderr_step.2 ++ timeout_step.2
    output := String.join ev.stdout_lines
    error_output := stderr_step.1 }

/-- Source lines 236-456, execute.  The three precondition checks raise
in source order; the duplicate check is the lock-protected is_running
step and its self-healing eviction persists.  Past the preconditions the
command is registered (process handle still absent), the run unfolds as
described by the event, the finally block always evicts the entry, and
the result is assembled by finishResult.  The timeout_override argument
only feeds the real-time watchdog thread, which is outside the model.
The dead except-branch for subprocess.TimeoutExpired (source lines
383-394) is unreachable because process.wait() is called without a
timeout, and is not modelled. -/
def execute (cfg : Config) (st : ExecutorState) (command : String)
    (has_callback : Bool) (verify_output : Option String)
    (timeout_override : Option Int) (ev : RunEvent) : ExecuteOutcome :=
  if validate_command command = false then
    .raised ("Invalid or unsafe command: " ++ command) st
  else
    let check := is_running st.running_commands command
    let st1 : ExecutorState := { st with running_commands := check.2 }
    if check.1 then .raised ("Command " ++ command ++ " is already running") st1
    else if verify_makefile_target cfg.makefile command = false then
      .raised ("Make target " ++ command ++ " not found in Makefile") st1
    else
      let _effective_timeout : Int :=
        match timeout_override with
        | some t => if t > 0 then t else cfg.timeout
        | none => cfg.timeout
      let reg1 := st1.running_commands.insert command (freshCommandState command)
      match ev.spawn_error with
      | some msg =>
        let warnings := ["Execution error: " ++ msg]
        let reg2 := reg1.erase command
        let out := finishResult command verify_output (some 1) false warnings "" ""
          ev.search_raises ev.search_found reg2 st1.execution_history
        .returned out.1 out.2
      | none =>
        let reg2 :=
          if (reg1.find? command).isSome then
            reg1.insert command
              { freshCommandState command with
                  pid := some ev.pid
                  process := some { pid := ev.pid, returncode := none, poll_raises := false } }
          else reg1
        let ph := runPhase has_callback ev
        let reg3 := reg2.erase command
        let out := finishResult command verify_output ph.exit_code ph.timeout_occurred
          ph.warnings ph.output ph.error_output
          ev.search_raises ev.search_found reg3 st1.execution_history
        .returned out.1 out.2

/-- A concrete configuration: a Makefile defining the targets install,
build and status. -/
def cfg0 : Config :=
  { timeout := 3600
    makefile := some "install:\n\techo hi\nbuild:\n\techo b\nstatus:\n\techo ok\n" }

/-- A concrete executor state: nothing running, empty history. -/
def st0 : ExecutorState := { running_commands := [], execution_history := [] }

/-- A concrete uneventful run: spawn succeeds, one output line, wait
reports exit code 0, the verification search (when consulted) finds a
match. -/
def ev0 : RunEvent :=
  { spawn_error := none
    pid := 7
    stdout_lines := ["done\n"]
    callback_errors := []
    wait_error := none
    wait_exit_code := 0
    stderr_read_error := none
    stderr_content := ""
    search_raises := false
    search_found := false }

/-- A run whose process was terminated by a signal: wait reports -15. -/
def evT : RunEvent := { ev0 with wait_exit_code := -15 }

def runT : ExecuteOutcome := execute cfg0 st0 "build" false none none evT

def resT : ZeroTrustExecutionResult := runT.getResult?.getD default

def stT : ExecutorState :=
  match runT with
  | .raised _ s => s
  | .returned _ s => s

/-- An uneventful run with no verification pattern. -/
def runOK : ExecuteOutcome := execute cfg0 st0 "build" false none none ev0

def resOK : ZeroTrustExecutionResult := runOK.getResult?.getD default

def stOK : ExecutorState :=
  match runOK with
  | .raised _ s => s
  | .returned _ s => s

/-- A successful run checked against pattern DONE, with the search
reporting a match. -/
def runV : ExecuteOutcome :=
  execute cfg0 st0 "build" false (some "DONE") none { ev0 with search_found := true }

def resV : ZeroTrustExecutionResult := runV.getResult?.getD default

def stV : ExecutorState :=
  match runV with
  | .raised _ s => s
  | .returned _ s => s

/-- A run with exit code 1 checked against pattern DONE, with the
search reporting a match in the output. -/
def evC3 : RunEvent := { ev0 with wait_exit_code := 1, search_found := true }

def runC3 : ExecuteOutcome := execute cfg0 st0 "build" false (some "DONE") none evC3

def resC3 : ZeroTrustExecutionResult := runC3.getResult?.getD default

def stC3 : ExecutorState :=
  match runC3 with
  | .raised _ s => s
  | .returned _ s => s

/-- A run whose spawn raised (the runner binary is missing). -/
def evC9 : RunEvent := { ev0 with spawn_error := some "No such file or directory" }

def runC9 : ExecuteOutcome := execute cfg0 st0 "build" false none none evC9

def resC9 : ZeroTrustExecutionResult := runC9.getResult?.getD default

/-- A live process handle for the kill fixtures. -/
def handle0 : ProcessHandle := { pid := 42, returncode := none, poll_raises := false }

/-- A registry holding one running build entry with a live handle. -/
def regK : Registry :=
  [("build",
    { command := "build", running := true, pid := some 42, process := some handle0 })]

theorem Registry.find?_erase_self (r : Registry) (k : String) :
    (r.erase k).find? k = none := by
  induction r with
  | nil => rfl
  | cons p rest ih =>
    obtain ⟨k', v'⟩ := p
    by_cases h : k' = k
    · simpa [Registry.erase, h] using ih
    · simp [Registry.erase, Registry.find?, h, ih]

theorem Registry.find?_insert_self (r : Registry) (k : String) (v : CommandState) :
    (r.insert k v).find? k = some v := by
  induction r with
  | nil => simp [Registry.insert, Registry.find?]
  | cons p rest ih =>
    obtain ⟨k', v'⟩ := p
    by_cases h : k' = k
    · simp [Registry.insert, Registry.find?, h]
    · simp [Registry.insert, Registry.find?, h, ih]

theorem startsWith_iff (p s : List Char) : startsWith p s = true ↔ ∃ t, s = p ++ t := by
  induction p generalizing s with
  | nil => simp [startsWith]
  | cons a ps ih =>
    cases s with
    | nil =>
      simp only [startsWith, List.cons_append]
      constructor
      · intro h; cases h
      · rintro ⟨t, ht⟩; cases ht
    | cons c cs =>
      simp only [startsWith, Bool.and_eq_true, beq_iff_eq, ih, List.cons_append,
        List.cons.injEq]
      constructor
      · rintro ⟨rfl, t, rfl⟩; exact ⟨t, rfl, rfl⟩
      · rintro ⟨t, rfl, rfl⟩; exact ⟨rfl, t, rfl⟩

theorem line_start_matches_iff (pat s : List Char) :
    line_start_matches pat s = true ↔ ∃ pre post, s = pre ++ '\n' :: (pat ++ post) := by
  induction s with
  | nil =>
    simp only [line_start_matches]
    constructor
    · intro h; cases h
    · rintro ⟨pre, post, h⟩
      have := congrArg List.length h
      simp only [List.length_nil, List.length_append, List.length_cons] at this
      omega
  | cons c rest ih =>
    simp only [line_start_matches, Bool.or_eq_true, Bool.and_eq_true, beq_iff_eq,
      startsWith_iff, ih]
    constructor
    · rintro (⟨rfl, t, rfl⟩ | ⟨pre, post, rfl⟩)
      · exact ⟨[], t, rfl⟩
      · exact ⟨c :: pre, post, rfl⟩
    · rintro ⟨pre, post, h⟩
      cases pre with
      | nil =>
        simp only [List.nil_append] at h
        cases h
        exact Or.inl ⟨rfl, post, rfl⟩
      | cons d pre' =>
        simp only [List.cons_append, List.cons.injEq] at h
        exact Or.inr ⟨pre', post, h.2⟩

theorem successOf_eq_true (ec : Option Int) (tocc : Bool) :
    successOf ec tocc = true ↔ ec = some 0 ∧ tocc = false := by
  cases tocc <;> cases ec <;> simp [successOf]

theorem verificationStep_fst_iff (vo : Option String) (s sr sf : Bool) :
    (verificationStep vo s sr sf).1 = true ↔
      s = true ∧ (verify_truthy vo = false ∨ (sr = false ∧ sf = true)) := by
  cases hvt : verify_truthy vo <;> cases s <;> cases sr <;> cases sf <;>
    simp [verificationStep, hvt]

theorem verificationStep_snd_not_found (vo : Option String) (s sr sf : Bool)
    (hvt : verify_truthy vo = true) (hs : s = true) (hsr : sr = false)
    (hsf : sf = false) :
    (verificationStep vo s sr sf).2 =
      ["Output verification failed: pattern " ++ vo.getD "" ++ " not found"] := by
  subst hs; subst hsr; subst hsf
  simp [verificationStep, hvt]

theorem finishResult_fst (c : String) (vo : Option String) (ec : Option Int)
    (tocc : Bool) (w : List String) (out eo : String) (sr sf : Bool)
    (reg : Registry) (hist : List ExecutionRecord) :
    (finishResult c vo ec tocc w out eo sr sf reg hist).1 =
      { command := c
        exit_code := ec
        output := out
        error_output := eo
        success := successOf ec tocc
        timeout_occurred := tocc
        verification_passed := (verificationStep vo (successOf ec tocc) sr sf).1
        warnings := w ++ (verificationStep vo (successOf ec tocc) sr sf).2 } := rfl

theorem finishResult_snd_running (c : String) (vo : Option String) (ec : Option Int)
    (tocc : Bool) (w : List String) (out eo : String) (sr sf : Bool)
    (reg : Registry) (hist : List ExecutionRecord) :
    (finishResult c vo ec tocc w out eo sr sf reg hist).2.running_commands = reg := rfl

theorem runPhase_timeout (hcb : Bool) (ev : RunEvent)
    (hx : (runPhase hcb ev).exit_code = none ∨
      (runPhase hcb ev).exit_code = some (-15) ∨
      (runPhase hcb ev).exit_code = some (-9)) :
    (runPhase hcb ev).timeout_occurred = true ∧
      "Command may have been terminated due to timeout" ∈ (runPhase hcb ev).warnings := by
  cases hw : ev.wait_error with
  | some msg => constructor <;> simp [runPhase, hw]
  | none =>
    simp only [runPhase, hw] at hx
    rcases hx with hx | hx | hx
    · exact absurd hx (by simp)
    · simp only [Option.some.injEq] at hx
      constructor <;> simp [runPhase, hw, hx]
    · simp only [Option.some.injEq] at hx
      constructor <;> simp [runPhase, hw, hx]

theorem execute_returned_shape (cfg : Config) (st : ExecutorState) (c : String)
    (hcb : Bool) (vo : Option String) (tmo : Option Int) (ev : RunEvent)
    (res : ZeroTrustExecutionResult) (st' : ExecutorState)
    (h : execute cfg st c hcb vo tmo ev = .returned res st') :
    ∃ (ec : Option Int) (tocc : Bool) (w : List String) (out eo : String)
      (reg : Registry) (hist : List ExecutionRecord),
      res = (finishResult c vo ec tocc w out eo ev.search_raises ev.search_found
        (Registry.erase reg c) hist).1 ∧
      st' = (finishResult c vo ec tocc w out eo ev.search_raises ev.search_found
        (Registry.erase reg c) hist).2 ∧
      ((ec = none ∨ ec = some (-15) ∨ ec = some (-9)) →
        tocc = true ∧ "Command may have been terminated due to timeout" ∈ w) := by
  simp only [execute] at h
  split at h
  · exact ExecuteOutcome.noConfusion h
  · split at h
    · exact ExecuteOutcome.noConfusion h
    · split at h
      · exact ExecuteOutcome.noConfusion h
      · split at h
        · injection h with h1 h2
          refine ⟨some 1, false, _, "", "", _, _, h1.symm, h2.symm, ?_⟩
          rintro (hx | hx | hx) <;> exact absurd hx (by decide)
        · injection h with h1 h2
          exact ⟨(runPhase hcb ev).exit_code, (runPhase hcb ev).timeout_occurred,
            (runPhase hcb ev).warnings, (runPhase hcb ev).output,
            (runPhase hcb ev).error_output, _, _, h1.symm, h2.symm,
            runPhase_timeout hcb ev⟩

theorem drop_append_drop {α : Type} (l t : List α) (k m : Nat) (hk : k ≤ l.length) :
    (l.drop k ++ t).drop m = (l ++ t).drop (k + m) := by
  rw [List.drop_append_eq_append_drop, List.drop_append_eq_append_drop, List.drop_drop]
  congr 1
  have hidx : m - (List.drop k l).length = k + m - l.length := by
    rw [List.length_drop]
    omega
  rw [hidx]

theorem record_execution_drop (h : List ExecutionRecord) (r : ExecutionRecord)
    (_hh : h.length ≤ max_history) :
    record_execution h r = (h ++ [r]).drop ((h.length + 1) - max_history) := by
  simp only [record_execution]
  split
  · congr 1
    simp [List.length_append]
  · rename_i hle
    simp only [List.length_append, List.length_cons, List.length_nil, Nat.not_lt] at hle
    have hz : h.length + 1 - max_history = 0 := by omega
    rw [hz, List.drop_zero]

theorem record_execution_length (h : List ExecutionRecord) (r : ExecutionRecord)
    (hh : h.length ≤ max_history) :
    (record_execution h r).length = min (h.length + 1) max_history := by
  rw [record_execution_drop h r hh, List.length_drop]
  simp only [List.length_append, List.length_cons, List.length_nil]
  omega

theorem foldl_record_execution (recs : List ExecutionRecord) :
    ∀ acc : List ExecutionRecord, acc.length ≤ max_history →
      recs.foldl record_execution acc =
        (acc ++ recs).drop ((acc.length + recs.length) - max_history) := by
  induction recs with
  | nil =>
    intro acc hacc
    simp only [List.foldl_nil, List.append_nil, List.length_nil, Nat.add_zero]
    rw [Nat.sub_eq_zero_of_le hacc, List.drop_zero]
  | cons r rs ih =>
    intro acc hacc
    have hlen := record_execution_length acc r hacc
    have hle : (record_execution acc r).length ≤ max_history := by rw [hlen]; omega
    simp only [List.foldl_cons]
    rw [ih (record_execution acc r) hle, hlen, record_execution_drop acc r hacc]
    have hk : acc.length + 1 - max_history ≤ (acc ++ [r]).length := by
      simp only [List.length_append, List.length_cons, List.length_nil]
      omega
    rw [drop_append_drop _ _ _ _ hk]
    have hassoc : (acc ++ [r]) ++ rs = acc ++ r :: rs := by simp
    rw [hassoc]
    congr 1
    simp only [List.length_cons]
    omega

/-- C1: the claim states that two concurrent execute calls for the same
task name let exactly one past the registry duplicate check, the other
raising the already-running error, because check and registration form a
single critical section per task name.  The code violates this: the
duplicate check (source lines 258-260, one lock acquisition inside
is_running) and the registration (source lines 295-303, a second lock
acquisition) are separate critical sections.  This theorem evaluates the
interleaving caller A check, caller A register, caller B check, caller B
register on the code: both checks return false — caller B's check even
evicts caller A's fresh registration, whose process handle is not yet
set — so neither call raises and both register. -/
theorem race_both_callers_pass_duplicate_check :
    (is_running ([] : Registry) "build").1 = false ∧
    (is_running (Registry.insert (is_running ([] : Registry) "build").2 "build"
      (freshCommandState "build")) "build").1 = false ∧
    (Registry.insert
      (is_running (Registry.insert (is_running ([] : Registry) "build").2 "build"
        (freshCommandState "build")) "build").2 "build"
      (freshCommandState "build")).find? "build" = some (freshCommandState "build") := by
  refine ⟨rfl, rfl, ?_⟩
  exact Registry.find?_insert_self _ "build" _

/-- C2: execute raises exactly when one of the three precondition checks
fails — invalid task name, task already running, or target absent from
the Makefile; a raised call leaves the execution history unchanged and
its outcome does not depend on the run event, i.e. it raises before any
process is spawned; conversely, when the preconditions pass, every
during-run failure described by the event is captured in the returned
result rather than raised. -/
theorem execute_raises_iff_precondition (cfg : Config) (st : ExecutorState)
    (c : String) (hcb : Bool) (vo : Option String) (tmo : Option Int) (ev : RunEvent) :
    ((execute cfg st c hcb vo tmo ev).getResult? = none ↔
      (validate_command c = false ∨ (is_running st.running_commands c).1 = true ∨
        verify_makefile_target cfg.makefile c = false)) ∧
    (∀ msg st', execute cfg st c hcb vo tmo ev = .raised msg st' →
      st'.execution_history = st.execution_history ∧
      ∀ ev', execute cfg st c hcb vo tmo ev' = .raised msg st') := by
  constructor
  · cases hval : validate_command c with
    | false => simp [execute, hval, ExecuteOutcome.getResult?]
    | true =>
      cases hrun : (is_running st.running_commands c).1 with
      | true => simp [execute, hval, hrun, ExecuteOutcome.getResult?]
      | false =>
        cases hmk : verify_makefile_target cfg.makefile c with
        | false => simp [execute, hval, hrun, hmk, ExecuteOutcome.getResult?]
        | true =>
          cases hsp : ev.spawn_error <;>
            simp [execute, hval, hrun, hmk, hsp, ExecuteOutcome.getResult?]
  · intro msg st' h
    cases hval : validate_command c with
    | false =>
      simp [execute, hval] at h
      obtain ⟨hmsg, hst⟩ := h
      subst hmsg; subst hst
      exact ⟨rfl, fun ev' => by simp [execute, hval]⟩
    | true =>
      cases hrun : (is_running st.running_commands c).1 with
      | true =>
        simp [execute, hval, hrun] at h
        obtain ⟨hmsg, hst⟩ := h
        subst hmsg; subst hst
        exact ⟨rfl, fun ev' => by simp [execute, hval, hrun]⟩
      | false =>
        cases hmk : verify_makefile_target cfg.makefile c with
        | false =>
          simp [execute, hval, hrun, hmk] at h
          obtain ⟨hmsg, hst⟩ := h
          subst hmsg; subst hst
          exact ⟨rfl, fun ev' => by simp [execute, hval, hrun, hmk]⟩
        | true =>
          exfalso
          cases hsp : ev.spawn_error <;>
            simp [execute, hval, hrun, hmk, hsp] at h

/-- C2 witness: the invalid task name raises, the raised state keeps the
empty history, and the same outcome arises under a different run event. -/
theorem execute_raises_iff_precondition_witness :
    (execute cfg0 st0 "rm -rf" false none none ev0).getResult? = none ∧
    st0.execution_history = st0.execution_history ∧
    execute cfg0 st0 "rm -rf" false none none evT =
      .raised ("Invalid or unsafe command: " ++ "rm -rf") st0 := by
  have h2 := (execute_raises_iff_precondition cfg0 st0 "rm -rf" false none none ev0).2
    ("Invalid or unsafe command: " ++ "rm -rf") st0 rfl
  exact ⟨(execute_raises_iff_precondition cfg0 st0 "rm -rf" false none none ev0).1.mpr
    (Or.inl (by decide)), h2.1, h2.2 evT⟩

/-- C3 counterexample: a run of build with exit code 1, checked against
pattern DONE, whose output search reports a match (the event's
search_found is true, matching output done under the case-insensitive
search): the claim as stated predicts verification_passed = true because
the requested pattern was found, and predicts a warning when a pattern
is not found, but the code yields verification_passed = false with no
warning because the verification branch also requires success. -/
theorem verification_pattern_found_but_failed_run :
    runC3.getResult?.map
      (fun r => (r.exit_code, r.verification_passed, r.warnings)) =
      some (some 1, false, []) := by
  rfl

/-- C3 (amended): for every completed run, verification_passed is true
iff the run succeeded (exit code 0 and no timeout) and either no
verification pattern was effectively requested or the requested
pattern's search succeeded and found a match; the mismatch warning is
added when a pattern was requested, the run succeeded, and the search
found no match. -/
theorem verification_gated_on_success (cfg : Config) (st : ExecutorState) (c : String)
    (hcb : Bool) (vo : Option String) (tmo : Option Int) (ev : RunEvent)
    (res : ZeroTrustExecutionResult) (st' : ExecutorState)
    (h : execute cfg st c hcb vo tmo ev = .returned res st') :
    (res.verification_passed = true ↔
      res.success = true ∧
        (verify_truthy vo = false ∨ (ev.search_raises = false ∧ ev.search_found = true))) ∧
    (res.success = true ↔ res.exit_code = some 0 ∧ res.timeout_occurred = false) ∧
    (verify_truthy vo = true → res.success = true → ev.search_raises = false →
      ev.search_found = false →
      ("Output verification failed: pattern " ++ vo.getD "" ++ " not found") ∈
        res.warnings) := by
  obtain ⟨ec, tocc, w, out, eo, reg, hist, hres, hst, -⟩ :=
    execute_returned_shape cfg st c hcb vo tmo ev res st' h
  subst hres; subst hst
  simp only [finishResult_fst]
  refine ⟨verificationStep_fst_iff vo (successOf ec tocc) ev.search_raises ev.search_found,
    successOf_eq_true ec tocc, ?_⟩
  intro hvt hs hsr hsf
  rw [verificationStep_snd_not_found vo (successOf ec tocc) ev.search_raises
    ev.search_found hvt hs hsr hsf]
  exact List.mem_append_right w (by simp)

/-- C3 witness: a successful run checked against DONE whose search found
a match has verification_passed = true by the amended criterion. -/
theorem verification_gated_on_success_witness :
    resV.verification_passed = true :=
  ((verification_gated_on_success cfg0 st0 "build" false (some "DONE") none
    { ev0 with search_found := true } resV stV rfl).1).mpr
    ⟨rfl, Or.inr ⟨rfl, rfl⟩⟩

/-- C4: whenever the observed exit code of a completed run is None, -15
(terminated) or -9 (killed), the result is marked timed out, a warning
mentioning possible timeout termination is appended, and
has_critical_failure holds — whether or not the watchdog actually fired. -/
theorem timeout_signal_marking (cfg : Config) (st : ExecutorState) (c : String)
    (hcb : Bool) (vo : Option String) (tmo : Option Int) (ev : RunEvent)
    (res : ZeroTrustExecutionResult) (st' : ExecutorState)
    (h : execute cfg st c hcb vo tmo ev = .returned res st')
    (hx : res.exit_code = none ∨ res.exit_code = some (-15) ∨
      res.exit_code = some (-9)) :
    res.timeout_occurred = true ∧
      "Command may have been terminated due to timeout" ∈ res.warnings ∧
      res.has_critical_failure = true := by
  obtain ⟨ec, tocc, w, out, eo, reg, hist, hres, hst, htimeout⟩ :=
    execute_returned_shape cfg st c hcb vo tmo ev res st' h
  subst hres; subst hst
  simp only [finishResult_fst] at hx ⊢
  obtain ⟨h1, h2⟩ := htimeout hx
  subst h1
  refine ⟨rfl, List.mem_append_left _ h2, ?_⟩
  simp [ZeroTrustExecutionResult.has_critical_failure]

/-- C4 witness: the run whose wait reported exit code -15 is marked
timed out with the warning and a critical failure. -/
theorem timeout_signal_marking_witness :
    resT.timeout_occurred = true ∧
      "Command may have been terminated due to timeout" ∈ resT.warnings ∧
      resT.has_critical_failure = true :=
  timeout_signal_marking cfg0 st0 "build" false none none evT resT stT rfl
    (Or.inr (Or.inl rfl))

/-- C5: every execute call that passes the three precondition checks and
registers its task has removed the registry entry by the time it
returns, on every exit path — normal completion, signal-interpreted
timeout, spawn failure and internal failure alike — so is_running for
that task reports false immediately afterwards. -/
theorem unregister_on_every_path (cfg : Config) (st : ExecutorState) (c : String)
    (hcb : Bool) (vo : Option String) (tmo : Option Int) (ev : RunEvent)
    (res : ZeroTrustExecutionResult) (st' : ExecutorState)
    (h : execute cfg st c hcb vo tmo ev = .returned res st') :
    st'.running_commands.find? c = none ∧
      (is_running st'.running_commands c).1 = false := by
  obtain ⟨ec, tocc, w, out, eo, reg, hist, -, hst, -⟩ :=
    execute_returned_shape cfg st c hcb vo tmo ev res st' h
  subst hst
  have hf : ((finishResult c vo ec tocc w out eo ev.search_raises ev.search_found
      (Registry.erase reg c) hist).2).running_commands.find? c = none := by
    rw [finishResult_snd_running]
    exact Registry.find?_erase_self reg c
  exact ⟨hf, by simp [is_running, hf]⟩

/-- C5 witness: after the uneventful run of build, the entry is gone and
is_running reports false. -/
theorem unregister_on_every_path_witness :
    stOK.running_commands.find? "build" = none ∧
      (is_running stOK.running_commands "build").1 = false :=
  unregister_on_every_path cfg0 st0 "build" false none none ev0 resOK stOK rfl

/-- C6: the execution history is a bounded FIFO buffer of capacity 100:
after recording any sequence of executions starting from an empty
history, the history holds exactly the most recent min(n, 100) records
in recording order, the oldest evicted first. -/
theorem execution_history_bounded_fifo (recs : List ExecutionRecord) :
    max_history = 100 ∧
    recs.foldl record_execution [] = recs.drop (recs.length - max_history) ∧
    (recs.foldl record_execution []).length = min recs.length max_history := by
  have h := foldl_record_execution recs [] (by simp [max_history])
  simp only [List.nil_append, List.length_nil, Nat.zero_add] at h
  refine ⟨rfl, h, ?_⟩
  rw [h, List.length_drop]
  omega

/-- C7: task-definition lookup fails closed — an I/O error while reading
the definition file yields false for every task name and no exception
(the model is a total function) — and it reports true exactly when the
file content has an occurrence of the task name followed by a colon at
the start of a line (at the very start of the content or directly after
a newline), the anchored multiline search of the source. -/
theorem task_lookup_fails_closed :
    (∀ t : String, verify_makefile_target none t = false) ∧
    (∀ t content : String,
      verify_makefile_target (some content) t = true ↔
        ∃ pre post : List Char,
          content.data = pre ++ ((t ++ ":").data ++ post) ∧
          (pre = [] ∨ ∃ pre2, pre = pre2 ++ ['\n'])) := by
  refine ⟨fun t => rfl, fun t content => ?_⟩
  simp only [verify_makefile_target, re_search_multiline_anchored, Bool.or_eq_true,
    startsWith_iff, line_start_matches_iff]
  constructor
  · rintro (⟨tail, htail⟩ | ⟨pre, post, hp⟩)
    · exact ⟨[], tail, by simpa using htail, Or.inl rfl⟩
    · refine ⟨pre ++ ['\n'], post, ?_, Or.inr ⟨pre, rfl⟩⟩
      simpa [List.append_assoc] using hp
  · rintro ⟨pre, post, hp, (rfl | ⟨pre2, rfl⟩)⟩
    · exact Or.inl ⟨post, by simpa using hp⟩
    · refine Or.inr ⟨pre2, post, ?_⟩
      simpa [List.append_assoc] using hp

/-- C8: kill returns false and leaves the registry unchanged when no
entry exists for the task; when an entry exists, the entry is removed in
every case — live handle, absent handle, raising termination alike — so
a subsequent is_running reports false, the call returns true exactly
when a process handle was stored and the termination sequence did not
raise, and when the graceful 5-second wait times out the sequence
escalates to a forced kill. -/
theorem kill_contract (reg : Registry) (c : String) (ev : KillEvent) :
    (reg.find? c = none → kill reg c ev = (false, reg, [])) ∧
    (∀ state, reg.find? c = some state →
      (kill reg c ev).2.1.find? c = none ∧
      (is_running (kill reg c ev).2.1 c).1 = false ∧
      ((kill reg c ev).1 = true ↔ state.process ≠ none ∧ ev.raises = false) ∧
      (state.process ≠ none → ev.raises = false → ev.wait_times_out = true →
        ProcAction.forceKill ∈ (kill reg c ev).2.2)) := by
  constructor
  · intro hf
    simp [kill, hf]
  · intro state hf
    have herase : (Registry.erase reg c).find? c = none := Registry.find?_erase_self reg c
    cases hp : state.process with
    | none =>
      refine ⟨by simp [kill, hf, hp, herase], by simp [kill, hf, hp, herase, is_running],
        by simp [kill, hf, hp], fun hne => absurd rfl hne⟩
    | some ph =>
      cases hr : ev.raises with
      | true =>
        refine ⟨by simp [kill, hf, hp, hr, herase],
          by simp [kill, hf, hp, hr, herase, is_running],
          by simp [kill, hf, hp, hr], fun _ hrf => absurd hrf (by decide)⟩
      | false =>
        cases hw : ev.wait_times_out with
        | true =>
          refine ⟨by simp [kill, hf, hp, hr, hw, herase],
            by simp [kill, hf, hp, hr, hw, herase, is_running],
            by simp [kill, hf, hp, hr, hw], fun _ _ _ => by simp [kill, hf, hp, hr, hw]⟩
        | false =>
          refine ⟨by simp [kill, hf, hp, hr, hw, herase],
            by simp [kill, hf, hp, hr, hw, herase, is_running],
            by simp [kill, hf, hp, hr, hw], fun _ _ hwt => absurd hwt (by decide)⟩

/-- C8 witness: killing the running build entry with a live handle, a
timed-out graceful wait and no exception returns true, removes the
entry, and the action trace contains the forced kill. -/
theorem kill_contract_witness :
    (kill regK "build" { wait_times_out := true, raises := false }).1 = true ∧
    (kill regK "build" { wait_times_out := true, raises := false }).2.1.find? "build" =
      none ∧
    ProcAction.forceKill ∈ (kill regK "build" { wait_times_out := true, raises := false }).2.2 := by
  have h := (kill_contract regK "build" { wait_times_out := true, raises := false }).2
    { command := "build", running := true, pid := some 42, process := some handle0 } rfl
  exact ⟨h.2.2.1.mpr ⟨by decide, rfl⟩, h.1, h.2.2.2 (by decide) rfl rfl⟩

/-- C9 counterexample: at a spawn failure (the runner binary missing)
the claim predicts an ExecutionResult with exit_code = None, but the
code's generic exception handler stores the sentinel exit code 1; the
warning describing the failure is appended as claimed. -/
theorem spawn_failure_exit_code_not_none :
    runC9.getResult?.map (fun r => (r.exit_code, r.warnings)) =
      some (some 1, ["Execution error: No such file or directory"]) := by
  rfl

/-- C9 (amended): when the subprocess cannot be spawned, execute does
not raise — it returns a result whose exit_code is the sentinel 1 (not
None), with a warning describing the failure appended, and the run is
not marked successful. -/
theorem spawn_failure_captured (cfg : Config) (st : ExecutorState) (c : String)
    (hcb : Bool) (vo : Option String) (tmo : Option Int) (ev : RunEvent) (msg : String)
    (hva : validate_command c = true)
    (hrun : (is_running st.running_commands c).1 = false)
    (hmk : verify_makefile_target cfg.makefile c = true)
    (hsp : ev.spawn_error = some msg) :
    (execute cfg st c hcb vo tmo ev).getResult? ≠ none ∧
    ∀ res, (execute cfg st c hcb vo tmo ev).getResult? = some res →
      res.exit_code = some 1 ∧ ("Execution error: " ++ msg) ∈ res.warnings ∧
        res.success = false := by
  constructor
  · simp [execute, hva, hrun, hmk, hsp, ExecuteOutcome.getResult?]
  · intro res hres
    simp [execute, hva, hrun, hmk, hsp, ExecuteOutcome.getResult?] at hres
    rw [← hres, finishResult_fst]
    refine ⟨rfl, List.mem_append_left _ (by simp), by simp [successOf]⟩

/-- C9 witness: the concrete spawn-failure run has exit code 1, the
warning, and no success. -/
theorem spawn_failure_captured_witness :
    resC9.exit_code = some 1 ∧
      ("Execution error: " ++ "No such file or directory") ∈ resC9.warnings ∧
      resC9.success = false :=
  (spawn_failure_captured cfg0 st0 "build" false none none evC9
    "No such file or directory" rfl rfl rfl rfl).2 resC9 rfl

/-- C10: the registry entry execute creates when it registers a task —
running flag set, process handle still absent — is never considered
actually running, and an is_running call for that task during this
window evicts the freshly registered entry and reports the task as not
running. -/
theorem fresh_registration_reports_not_running (c : String) :
    (freshCommandState c).running = true ∧
    (freshCommandState c).is_actually_running = false ∧
    is_running [(c, freshCommandState c)] c = (false, []) := by
  refine ⟨rfl, rfl, ?_⟩
  simp [is_running, Registry.find?, CommandState.is_actually_running, freshCommandState,
    Registry.erase]

end AhabGui
